import Mathlib

/-!
Shallow embedding of the boofi administration agent's core data model and
operations, translated from the Rust sources, together with theorems that
settle the specification claims about them.

Conventions used throughout:
* Rust `Vec<T>` becomes `List T`, `usize`/`u32` become `Nat` (the values
  involved are small ids, exit codes and timestamps; no arithmetic overflow
  is relevant to any claim).
* `SystemTime` instants and `Duration`s become `Nat` (seconds); the private
  clock reads (`SystemTime::now()`) and random token generation
  (`AuthController::token`) are passed in as explicit arguments.
* Fallible Rust functions returning `Resul<T>` become `Except Erro T`.
* Calls into external crates (regex matching, the transport backends, the
  tokio runtime) are modelled as explicit function arguments; the spawned
  task body is modelled as a pure state transformer that is run after the
  synchronous part of `new_task`, which matches the per-record view of the
  concurrency model (one detached unit owns the terminal write).
-/

set_option maxHeartbeats 1600000

namespace Boofi

/-- `Os` enum from `src/system/os.rs`: the known (and unknown) operating
systems. -/
inductive Os where
  | Unknown
  | LinuxUnknown
  | LinuxAny
  | LinuxArchlinux
  | LinuxFedora
  | LinuxOpenSusLeap
  | LinuxUbuntu
  | LinuxUbuntuLuna
  | LinuxUbuntuFocal
  | LinuxUbuntuBionic
  | LinuxDebian
  | LinuxDebianBookworm
  | LinuxDebianBullseye
  | LinuxDebianBuster
deriving DecidableEq, Repr, BEq, Fintype

/-- `Os::compatible` from `src/system/os.rs` lines 51-67: identity is always
compatible; `LinuxAny`, `LinuxUbuntu` and `LinuxDebian` each carry an explicit
list that is consulted with `contains`; every other tag is compatible only
with itself. -/
def Os.compatible (self other : Os) : Bool :=
  if self = other then
    true
  else
    match self with
    | Os.LinuxAny =>
        [Os.LinuxArchlinux, Os.LinuxFedora, Os.LinuxOpenSusLeap,
         Os.LinuxDebian, Os.LinuxUbuntu, Os.LinuxUbuntuBionic, Os.LinuxUbuntuFocal,
         Os.LinuxUbuntuLuna, Os.LinuxDebianBookworm, Os.LinuxDebianBuster,
         Os.LinuxDebianBullseye].contains other
    | Os.LinuxUbuntu =>
        [Os.LinuxAny, Os.LinuxUbuntuBionic, Os.LinuxUbuntuFocal,
         Os.LinuxUbuntuLuna].contains other
    | Os.LinuxDebian =>
        [Os.LinuxAny, Os.LinuxDebianBookworm, Os.LinuxDebianBuster,
         Os.LinuxDebianBullseye].contains other
    | _ => false

/-- The "declared descendant" relation of the spec's two-level taxonomy
(section 3 of the spec, and the examples named in claim C1): the non-family
Linux tags listed in the `LinuxAny` arm of `Os::compatible` sit under
`LinuxAny`, the Ubuntu releases sit under `LinuxUbuntu`, and the Debian
releases sit under `LinuxDebian`.  This definition follows the spec's
taxonomy wording; it is the quantification domain of claim C1, not a
function of the program. -/
def declaredDescendant (s f : Os) : Bool :=
  match f with
  | Os.LinuxAny =>
      [Os.LinuxArchlinux, Os.LinuxFedora, Os.LinuxOpenSusLeap,
       Os.LinuxDebian, Os.LinuxUbuntu, Os.LinuxUbuntuBionic, Os.LinuxUbuntuFocal,
       Os.LinuxUbuntuLuna, Os.LinuxDebianBookworm, Os.LinuxDebianBuster,
       Os.LinuxDebianBullseye].contains s
  | Os.LinuxUbuntu =>
      [Os.LinuxUbuntuBionic, Os.LinuxUbuntuFocal, Os.LinuxUbuntuLuna].contains s
  | Os.LinuxDebian =>
      [Os.LinuxDebianBookworm, Os.LinuxDebianBullseye, Os.LinuxDebianBuster].contains s
  | _ => false

/-- The error enum `Erro` from `src/error.rs`, restricted to the variants the
claims exercise; payload types that only wrap foreign error values are carried
as their display strings. -/
inductive Erro where
  | SystemDetection
  | OsDetection
  | EndpointIncompatible
  | RunUserUserInvalid
  | RunUserPasswordInvalid
  | RunUserStdin
  | RunUser (code : Nat) (msg : String)
  | RunSsh (code : Nat) (msg : String)
  | EndpointMissing
  | OsDetectionFailed
  | TaskNotFound
  | TaskInvalidIndex
  | FilesNotMatched
  | FilesNotMatchedByName (name : String)
  | FilesNotMatchedByPattern (pat : String)
  | AuthTokenExpired
  | AuthNotFound
  | Deserialize (msg : String)
  | SerdeJson (msg : String)
  | FileNotCapable (capability : String)
deriving DecidableEq, Repr

/-- The string produced by Rust's derived `Debug` formatting of an `Erro`
value, as used by `format!("{:?}", error)` in `TaskController::new_task`:
the variant name followed by its payload, if any. -/
def Erro.debugFmt : Erro → String
  | Erro.SystemDetection => "SystemDetection"
  | Erro.OsDetection => "OsDetection"
  | Erro.EndpointIncompatible => "EndpointIncompatible"
  | Erro.RunUserUserInvalid => "RunUserUserInvalid"
  | Erro.RunUserPasswordInvalid => "RunUserPasswordInvalid"
  | Erro.RunUserStdin => "RunUserStdin"
  | Erro.RunUser code msg => "RunUser(" ++ (toString code ++ (", " ++ (msg ++ ")")))
  | Erro.RunSsh code msg => "RunSsh(" ++ (toString code ++ (", " ++ (msg ++ ")")))
  | Erro.EndpointMissing => "EndpointMissing"
  | Erro.OsDetectionFailed => "OsDetectionFailed"
  | Erro.TaskNotFound => "TaskNotFound"
  | Erro.TaskInvalidIndex => "TaskInvalidIndex"
  | Erro.FilesNotMatched => "FilesNotMatched"
  | Erro.FilesNotMatchedByName n => "FilesNotMatchedByName(" ++ (n ++ ")")
  | Erro.FilesNotMatchedByPattern p => "FilesNotMatchedByPattern(" ++ (p ++ ")")
  | Erro.AuthTokenExpired => "AuthTokenExpired"
  | Erro.AuthNotFound => "AuthNotFound"
  | Erro.Deserialize m => "Deserialize(" ++ (m ++ ")")
  | Erro.SerdeJson m => "SerdeJson(" ++ (m ++ ")")
  | Erro.FileNotCapable c => "FileNotCapable(" ++ (c ++ ")")

/-- `Auth` record from `src/controller.rs` lines 10-15: token, username,
password and issuance instant. -/
structure Auth where
  token : String
  username : String
  password : String
  date : Nat
deriving DecidableEq, Repr

/-- `Auth::expired` from `src/controller.rs` lines 17-20:
`SystemTime::now() >= self.date + duration`, with the clock read passed in
as `now`. -/
def Auth.expired (a : Auth) (duration now : Nat) : Bool :=
  decide (a.date + duration ≤ now)

/-- `AuthController::insert_or_replace` from `src/controller.rs` lines 47-65.
The linear scan updates the first record whose username matches in place
(new password, new token, `date` untouched) and returns early; otherwise a
fresh record carrying the current instant is appended.  The randomly
generated token and the `SystemTime::now()` read are passed in as `fresh`
and `now`.  Returns the updated list and the returned token. -/
def insertOrReplace : List Auth → String → String → String → Nat → List Auth × String
  | [], username, password, fresh, now =>
      ([{ token := fresh, username := username, password := password, date := now }], fresh)
  | a :: rest, username, password, fresh, now =>
      if a.username = username then
        ({ a with password := password, token := fresh } :: rest, fresh)
      else
        let r := insertOrReplace rest username password fresh now
        (a :: r.1, r.2)

/-- `AuthController::get` from `src/controller.rs` lines 67-77: find the
record by token (`AuthNotFound` when absent), then check expiry against the
configured duration (`AuthTokenExpired` when stale).  `get` takes `&self` in
the source, so the list itself is never modified. -/
def authGet (auths : List Auth) (duration : Nat) (token : String) (now : Nat) :
    Except Erro Auth :=
  match auths.find? (fun a => a.token == token) with
  | some a => if a.expired duration now then Except.error Erro.AuthTokenExpired else Except.ok a
  | none => Except.error Erro.AuthNotFound

/-- `AuthController::delete` from `src/controller.rs` lines 79-83: retain all
records whose token differs, report whether the list shrank. -/
def authDelete (auths : List Auth) (token : String) : List Auth × Bool :=
  let retained := auths.filter (fun a => a.token ≠ token)
  (retained, decide (retained.length < auths.length))

/-- A `serde_json::Value` JSON tree, as far as the task ledger and the file
handlers need it (numbers only ever carry task ids here, so `Nat` suffices). -/
inductive Value where
  | null : Value
  | str : String → Value
  | num : Nat → Value
  | arr : List Value → Value
  | obj : List (String × Value) → Value

/-- Field lookup on a serialized JSON object (`None` on other variants). -/
def objGet (v : Value) (k : String) : Option Value :=
  match v with
  | Value.obj fields => (fields.find? (fun f => f.1 == k)).map (fun f => f.2)
  | _ => none

/-- `TaskStatus` from `src/task.rs` lines 11-18. -/
inductive TaskStatus where
  | Created
  | Running
  | Finished
  | Failed
deriving DecidableEq, Repr

/-- serde serialization of `TaskStatus` under `rename_all = "snake_case"`. -/
def statusToValue : TaskStatus → Value
  | TaskStatus.Created => Value.str "created"
  | TaskStatus.Running => Value.str "running"
  | TaskStatus.Finished => Value.str "finished"
  | TaskStatus.Failed => Value.str "failed"

/-- `Task` from `src/task.rs` lines 21-31.  The `app: Option<AppBuilders>`
field is `#[serde(skip)]`ped, never read back, and only assigned once at the
very end of the spawned unit; no claim concerns it, so it is omitted. -/
structure Task where
  id : Nat
  app_name : String
  status : TaskStatus
  app_input : Value
  app_output : Option Value
  app_error : Option String

def optValueToValue : Option Value → Value
  | none => Value.null
  | some v => v

def optStrToValue : Option String → Value
  | none => Value.null
  | some s => Value.str s

/-- serde serialization of a `Task` (`to_value(&task)` in `new_task`): plain
data fields in declaration order, `Option` as value-or-null, the skipped
`app` field absent.  On these field types `serde_json::to_value` cannot
fail, so it is total here. -/
def taskToValue (t : Task) : Value :=
  Value.obj [
    ("id", Value.num t.id),
    ("app_name", Value.str t.app_name),
    ("status", statusToValue t.status),
    ("app_input", t.app_input),
    ("app_output", optValueToValue t.app_output),
    ("app_error", optStrToValue t.app_error)]

/-- `LsEntry` output record of the `ls` app (`src/apps/ls.rs`). -/
structure LsEntry where
  filename : String
  size : Option String
  permissions : Option String

/-- `Uname` output record of the `uname` app (`src/apps/uname.rs`). -/
structure Uname where
  kernel_name : String
  nodename : String
  kernel_release : String
  kernel_version : String
  machine : String
  processor : String
  hardware_platform : String
  operating_system : String

/-- The closed set of typed outputs the registered apps can produce
(`src/apps/mod.rs`: `ls` yields `Vec<LsEntry>`, `sh` a `String`, `touch` and
`wget` unit, `uname` a `Uname`).  `AppBuilders` is a closed enum, so these
are the only output shapes a task can ever carry. -/
inductive AppOutput where
  | ls (entries : List LsEntry)
  | sh (output : String)
  | touch
  | uname (u : Uname)
  | wget

def lsEntryToValue (e : LsEntry) : Value :=
  Value.obj [
    ("filename", Value.str e.filename),
    ("size", optStrToValue e.size),
    ("permissions", optStrToValue e.permissions)]

def unameToValue (u : Uname) : Value :=
  Value.obj [
    ("kernel_name", Value.str u.kernel_name),
    ("nodename", Value.str u.nodename),
    ("kernel_release", Value.str u.kernel_release),
    ("kernel_version", Value.str u.kernel_version),
    ("machine", Value.str u.machine),
    ("processor", Value.str u.processor),
    ("hardware_platform", Value.str u.hardware_platform),
    ("operating_system", Value.str u.operating_system)]

/-- `serde_json::to_value` applied to the erased app output
(`to_value(result)?` in the spawned unit of `new_task`).  Its Rust signature
is fallible, which the `Except` keeps; on the five concrete output shapes of
the registered apps (strings, unit and structs of strings) serialization
always succeeds, which is why every arm is `ok`. -/
def toValue : AppOutput → Except String Value
  | AppOutput.ls es => Except.ok (Value.arr (es.map lsEntryToValue))
  | AppOutput.sh s => Except.ok (Value.str s)
  | AppOutput.touch => Except.ok Value.null
  | AppOutput.uname u => Except.ok (unameToValue u)
  | AppOutput.wget => Except.ok Value.null

/-- `TaskController` from `src/task.rs` lines 39-51 (the `Arc<Mutex<..>>`
around the ledger becomes the plain list it protects). -/
structure TaskController where
  tasks : List Task
  last_id : Nat

/-- The synchronous part of `TaskController::new_task` (`src/task.rs` lines
56-79): allocate `last_id + 1`, push a `Created` record with no output and
no error, bump `last_id`, and return the serialized snapshot of the record
taken before the push (`to_value(&task)` cannot fail on `Task`'s field
types).  The detached execution it spawns is `spawnBody` below. -/
def new_task (tc : TaskController) (appName : String) (value : Value) :
    Value × TaskController :=
  let id := tc.last_id + 1
  let task : Task := { id := id, app_name := appName, status := TaskStatus.Created,
                       app_input := value, app_output := none, app_error := none }
  (taskToValue task, { tasks := tc.tasks ++ [task], last_id := id })

/-- The spawned execution unit of `TaskController::new_task` (`src/task.rs`
lines 81-111), as a transformer of the ledger: look up index `id - 1`
(`ok_or(TaskInvalidIndex)?`), flip the record to `Running`, then — given the
outcome `result` of `app.run` — either serialize the output
(`to_value(result)?`, whose failure would escape as the spawned unit's own
error) and write `Finished`, or record `format!("{:?}", error)` and write
`Failed`.  The two lock acquisitions around the run are sequenced here; no
other writer touches this record in the source. -/
def spawnBody (tasks : List Task) (id : Nat) (result : Except Erro AppOutput) :
    Except Erro (List Task) :=
  let index := id - 1
  match tasks[index]? with
  | none => Except.error Erro.TaskInvalidIndex
  | some t =>
      let tasks1 := tasks.set index { t with status := TaskStatus.Running }
      match tasks1[index]? with
      | none => Except.error Erro.TaskInvalidIndex
      | some task =>
          match result with
          | Except.ok r =>
              match toValue r with
              | Except.error m => Except.error (Erro.SerdeJson m)
              | Except.ok v =>
                  Except.ok (tasks1.set index
                    { task with app_output := some v, status := TaskStatus.Finished })
          | Except.error e =>
              Except.ok (tasks1.set index
                { task with app_error := some (Erro.debugFmt e), status := TaskStatus.Failed })

/-- The `TaskController` invariant: `last_id` counts the ledger (ids are
allocated as `last_id + 1` and records are only ever appended), and every
recorded id is at most `last_id`.  `TaskController::default()` satisfies it
and `new_task` preserves it. -/
def TaskController.wf (tc : TaskController) : Prop :=
  tc.last_id = tc.tasks.length ∧ ∀ t ∈ tc.tasks, t.id ≤ tc.last_id

/-- The record as rewritten by the successful arm of the spawned unit. -/
def finishTask (t : Task) (v : Value) : Task :=
  { t with status := TaskStatus.Finished, app_output := some v }

/-- The record as rewritten by the failing arm of the spawned unit. -/
def failTask (t : Task) (e : Erro) : Task :=
  { t with status := TaskStatus.Failed, app_error := some (Erro.debugFmt e) }

/-- The `Created` record pushed by `new_task` (its structure literal, split
out so proofs can name it). -/
def createdTask (id : Nat) (appName : String) (v : Value) : Task :=
  { id := id, app_name := appName, status := TaskStatus.Created,
    app_input := v, app_output := none, app_error := none }

/-- A compiled regular expression from the external `regex` crate, modelled
by its matching function. -/
structure RegexM where
  isMatch : String → Bool

/-- `FileMatchPatternType` from `src/files/mod.rs` lines 127-132: `Path` for
exact match and `Regex` for the rest. -/
inductive FileMatchPatternType where
  | path (s : String)
  | regex (r : RegexM)

/-- `FileMatchPattern` from `src/files/mod.rs` lines 136-140. -/
structure FileMatchPattern where
  pattern : FileMatchPatternType
  compatibility : List Os

/-- `FileMatchPattern::match` from `src/files/mod.rs` lines 162-172: the
pattern applies when some declared OS tag is compatible with the target `os`,
and then the path matches exactly (`Path`) or the regex matches (`Regex`). -/
def FileMatchPattern.matches (p : FileMatchPattern) (value : String) (os : Os) : Bool :=
  if p.compatibility.any (fun i => i.compatible os) then
    match p.pattern with
    | FileMatchPatternType.path s => s == value
    | FileMatchPatternType.regex r => r.isMatch value
  else
    false

/-- The data every `FileBuilders` variant contributes through the
`FileBuilder` trait (`src/files/mod.rs` lines 205-258): its unique name, its
declared match patterns, and the read/write behaviour of the `File` value its
`match` constructs (the handle is the matched path).  The twenty concrete
builders registered in `Controller::new` differ only in these fields. -/
structure FileBuilderSpec where
  name : String
  patterns : List FileMatchPattern
  readFile : String → Except Erro Value
  writeFile : String → Value → Except Erro Unit

/-- `FileBuilder::match` from `src/files/mod.rs` lines 217-229: scan the
declared patterns in order, return `Self::File::new(value)` for the first
that matches. -/
def builderMatchHandle (b : FileBuilderSpec) (value : String) (os : Os) : Option String :=
  (b.patterns.find? (fun p => p.matches value os)).map (fun _ => value)

/-- `FileBuilders::match` from the `file_builders!` macro
(`src/files/mod.rs` lines 278-282): `r#match(path, os).is_some()`. -/
def builderMatch (b : FileBuilderSpec) (value : String) (os : Os) : Bool :=
  (builderMatchHandle b value os).isSome

/-- `System` from `src/system/mod.rs` lines 172-176: one platform backend
plus an OS tag set at most once.  The backend's transport calls are
abstracted as functions; only `delete` (and, through
`FileBuilderSpec`, read/write) is needed by the claims. -/
structure System where
  os? : Option Os
  deleteFn : String → Except Erro Unit

/-- `System::os` from `src/system/mod.rs` lines 187-189:
`self.os.as_ref().ok_or(Erro::OsDetection)`. -/
def System.os (s : System) : Except Erro Os :=
  match s.os? with
  | some o => Except.ok o
  | none => Except.error Erro.OsDetection

/-- `Controller::file_builders_mut_by_match` from `src/controller.rs` lines
178-183: resolve the system OS, then return the first registered file
builder whose `match` accepts the path, or fail with
`FilesNotMatchedByPattern`.  Total — no panic is possible. -/
def file_builders_mut_by_match (files : List FileBuilderSpec) (pattern : String)
    (system : System) : Except Erro FileBuilderSpec :=
  match system.os with
  | Except.error e => Except.error e
  | Except.ok os =>
      match files.find? (fun f => builderMatch f pattern os) with
      | some f => Except.ok f
      | none => Except.error (Erro.FilesNotMatchedByPattern pattern)

/-- `FileBuilders::read` from the `file_builders!` macro (`src/files/mod.rs`
lines 284-288): re-match the path against the builder's patterns under the
system OS (`FilesNotMatched` when none applies), then read through the
matched `File`. -/
def fileBuildersRead (b : FileBuilderSpec) (path : String) (system : System) :
    Except Erro Value :=
  match system.os with
  | Except.error e => Except.error e
  | Except.ok os =>
      match builderMatchHandle b path os with
      | none => Except.error Erro.FilesNotMatched
      | some handle => b.readFile handle

/-- `FileBuilders::write` from the `file_builders!` macro
(`src/files/mod.rs` lines 297-301): same shape as `read`. -/
def fileBuildersWrite (b : FileBuilderSpec) (path : String) (input : Value)
    (system : System) : Except Erro Unit :=
  match system.os with
  | Except.error e => Except.error e
  | Except.ok os =>
      match builderMatchHandle b path os with
      | none => Except.error Erro.FilesNotMatched
      | some handle => b.writeFile handle input

/-- `FileBuilders::delete` from the `file_builders!` macro
(`src/files/mod.rs` lines 310-314): every arm ignores the builder
(`Self::$typ(_i)`) and forwards straight to `system.delete(path)`. -/
def fileBuildersDelete (_i : FileBuilderSpec) (path : String) (system : System) :
    Except Erro Unit :=
  system.deleteFn path

/-- A concrete one-entry registry used to instantiate the dispatch theorems:
a "hosts" builder with one exact `Path` pattern for "/etc/hosts" valid on
`LinuxAny` (read/write not capable, as for a read-only artifact without an
override). -/
def hostsBuilder : FileBuilderSpec :=
  { name := "hosts",
    patterns := [{ pattern := FileMatchPatternType.path "/etc/hosts",
                   compatibility := [Os.LinuxAny] }],
    readFile := fun _ => Except.error (Erro.FileNotCapable "read"),
    writeFile := fun _ _ => Except.error (Erro.FileNotCapable "write") }

/-- A concrete resolved `System` tagged `LinuxUbuntu` whose transport delete
succeeds. -/
def ubuntuSystem : System :=
  { os? := some Os.LinuxUbuntu, deleteFn := fun _ => Except.ok () }

/-- `Credential` from `src/system/mod.rs` lines 33-36. -/
structure Credential where
  username : String
  password : String

/-- `SystemManager` from `src/system/mod.rs` lines 289-292: the lazily
resolved cached `System` plus the configured endpoint. -/
structure SystemManager where
  system : Option System
  endpoint : Option String

/-- `SystemManager::system` / `SystemManager::system_credential` from
`src/system/mod.rs` lines 302-314: when the cache is empty, resolve a
`System` via `System::detect` (abstracted as `detect`) and run the initial
OS detection (`system.detect_os()`, abstracted as `detectOs`, whose result
is stored into the system), then cache it; when the cache is filled, the
credential argument is never consulted and the cached `System` is returned
unchanged. -/
def system_credential (detect : Credential → Option String → Except Erro System)
    (detectOs : System → Except Erro Os) (sm : SystemManager) (credential : Credential) :
    Except Erro (System × SystemManager) :=
  match sm.system with
  | some s => Except.ok (s, sm)
  | none =>
      match detect credential sm.endpoint with
      | Except.error e => Except.error e
      | Except.ok sys =>
          match detectOs sys with
          | Except.error e => Except.error e
          | Except.ok os =>
              let sys2 : System := { sys with os? := some os }
              Except.ok (sys2, { sm with system := some sys2 })

/-- `Posix::exist` from `src/system/posix.rs` lines 321-330, parameterized by
the transport `run_args` primitive (a run of `/bin/test` with `-e` and the
path): success yields `Ok(true)`; a `RunUser`/`RunSsh` failure with exit code
exactly 1 yields `Ok(false)` (the or-pattern with its `code == 1` guard); any
other error falls through to the `Err(e) => Err(e)` arm. -/
def posixExist (run : String → List String → Except Erro (List Nat)) (path : String) :
    Except Erro Bool :=
  match run "/bin/test" ["-e", path] with
  | Except.ok _ => Except.ok true
  | Except.error (Erro.RunUser code msg) =>
      if code = 1 then Except.ok false else Except.error (Erro.RunUser code msg)
  | Except.error (Erro.RunSsh code msg) =>
      if code = 1 then Except.ok false else Except.error (Erro.RunSsh code msg)
  | Except.error e => Except.error e

/-- Claim C1 (counterexample): `LinuxUbuntu` is a declared descendant of the
family tag `LinuxAny`, the two tags are distinct, and yet
`Os::compatible(LinuxUbuntu, LinuxAny)` returns `true` (the `LinuxUbuntu` arm
of the match lists `LinuxAny` in its own compatibility set), contradicting
the claim that compatibility from a descendant to its ancestor holds only
when the two tags are equal. -/
theorem compatible_descendant_ancestor_counterexample :
    declaredDescendant Os.LinuxUbuntu Os.LinuxAny = true ∧
    Os.LinuxUbuntu ≠ Os.LinuxAny ∧
    Os.compatible Os.LinuxUbuntu Os.LinuxAny = true := by
  decide

/-- Claim C1 (amended): for every pair of distinct OS tags `s` and `f` with
`s` a declared descendant of the family tag `f`, `Os::compatible s f` returns
`true` exactly when `f` is `LinuxAny` and `s` is one of the two mid-level
family tags `LinuxUbuntu` or `LinuxDebian` (whose compatibility lists name
`LinuxAny`); for every other descendant/ancestor pair, in particular for all
version-level tags under their distro family, it returns `false`. -/
theorem compatible_descendant_ancestor :
    ∀ s f : Os, declaredDescendant s f = true →
      (Os.compatible s f = true ↔
        (f = Os.LinuxAny ∧ (s = Os.LinuxUbuntu ∨ s = Os.LinuxDebian))) := by
  decide

/-- Witness for the amended claim C1, at the concrete descendant pair
`LinuxUbuntuFocal` under `LinuxUbuntu` (where compatibility is `false`). -/
theorem compatible_descendant_ancestor_witness :
    declaredDescendant Os.LinuxUbuntuFocal Os.LinuxUbuntu = true ∧
    (Os.compatible Os.LinuxUbuntuFocal Os.LinuxUbuntu = true ↔
      (Os.LinuxUbuntu = Os.LinuxAny ∧
        (Os.LinuxUbuntuFocal = Os.LinuxUbuntu ∨ Os.LinuxUbuntuFocal = Os.LinuxDebian))) :=
  ⟨by decide, compatible_descendant_ancestor Os.LinuxUbuntuFocal Os.LinuxUbuntu (by decide)⟩

theorem append_ne_empty (a b : String) (h : a ≠ "") : a ++ b ≠ "" := by
  intro hc
  apply h
  have hl := congrArg String.length hc
  rw [String.length_append] at hl
  have ha : a.length = 0 := by
    have : (("" : String)).length = 0 := rfl
    omega
  cases a with
  | mk data =>
      cases data with
      | nil => rfl
      | cons c cs => simp [String.length, List.length] at ha

theorem debugFmt_ne_empty (e : Erro) : e.debugFmt ≠ "" := by
  cases e <;> first
    | decide
    | exact append_ne_empty _ _ (by decide)

theorem insertOrReplace_keeps_token_ne (l : List Auth) (u p t : String) (n : Nat)
    (x : String) (hl : ∀ a ∈ l, a.token ≠ x) (ht : t ≠ x) :
    ∀ a ∈ (insertOrReplace l u p t n).1, a.token ≠ x := by
  induction l with
  | nil =>
      intro a ha
      simp [insertOrReplace] at ha
      simp [ha, ht]
  | cons b rest ih =>
      intro a ha
      by_cases hb : b.username = u
      · simp [insertOrReplace, hb] at ha
        rcases ha with ha | ha
        · simp [ha, ht]
        · exact hl a (List.mem_cons_of_mem b ha)
      · simp [insertOrReplace, hb] at ha
        rcases ha with ha | ha
        · exact hl a (by simp [ha])
        · exact ih (fun c hc => hl c (List.mem_cons_of_mem b hc)) a ha

theorem rotate_removes_old_token (l : List Auth) (u p1 p2 t1 t2 : String) (n1 n2 : Nat)
    (hl : ∀ a ∈ l, a.token ≠ t1) (ht : t2 ≠ t1) :
    ∀ a ∈ (insertOrReplace (insertOrReplace l u p1 t1 n1).1 u p2 t2 n2).1, a.token ≠ t1 := by
  induction l with
  | nil =>
      intro a ha
      simp [insertOrReplace] at ha
      simp [ha, ht]
  | cons b rest ih =>
      intro a ha
      by_cases hb : b.username = u
      · simp [insertOrReplace, hb] at ha
        rcases ha with ha | ha
        · simp [ha, ht]
        · exact hl a (List.mem_cons_of_mem b ha)
      · simp [insertOrReplace, hb] at ha
        rcases ha with ha | ha
        · exact hl a (by simp [ha])
        · exact ih (fun c hc => hl c (List.mem_cons_of_mem b hc)) a ha

theorem rotate_new_token_resolves (l : List Auth) (u p1 p2 t1 t2 : String) (n1 n2 : Nat)
    (hl : ∀ a ∈ l, a.token ≠ t2) :
    ∃ rec, (insertOrReplace (insertOrReplace l u p1 t1 n1).1 u p2 t2 n2).1.find?
        (fun x => x.token == t2) = some rec ∧ rec.username = u := by
  induction l with
  | nil =>
      refine ⟨{ token := t2, username := u, password := p2, date := n1 }, ?_, rfl⟩
      simp [insertOrReplace]
  | cons b rest ih =>
      by_cases hb : b.username = u
      · refine ⟨{ b with password := p2, token := t2 }, ?_, hb⟩
        simp [insertOrReplace, hb]
      · have hbt : b.token ≠ t2 := hl b (by simp)
        obtain ⟨rec, hfind, hu⟩ := ih (fun c hc => hl c (List.mem_cons_of_mem b hc))
        refine ⟨rec, ?_, hu⟩
        simp [insertOrReplace, hb, List.find?_cons, hbt, hfind]

theorem insertOrReplace_usernames_of_mem (l : List Auth) (u p t : String) (n : Nat)
    (hex : ∃ b ∈ l, b.username = u) :
    (insertOrReplace l u p t n).1.map Auth.username = l.map Auth.username := by
  induction l with
  | nil => simp at hex
  | cons b rest ih =>
      by_cases hb : b.username = u
      · simp [insertOrReplace, hb]
      · rcases hex with ⟨c, hc, hcu⟩
        rcases List.mem_cons.mp hc with rfl | hc
        · exact absurd hcu hb
        · simp [insertOrReplace, hb, ih ⟨c, hc, hcu⟩]

theorem insertOrReplace_usernames_of_not_mem (l : List Auth) (u p t : String) (n : Nat)
    (hnot : ∀ b ∈ l, b.username ≠ u) :
    (insertOrReplace l u p t n).1
      = l ++ [{ token := t, username := u, password := p, date := n }] := by
  induction l with
  | nil => simp [insertOrReplace]
  | cons b rest ih =>
      have hb : b.username ≠ u := hnot b (by simp)
      simp [insertOrReplace, hb, ih (fun c hc => hnot c (List.mem_cons_of_mem b hc))]

theorem insertOrReplace_nodup (l : List Auth) (u p t : String) (n : Nat)
    (h : (l.map Auth.username).Nodup) :
    ((insertOrReplace l u p t n).1.map Auth.username).Nodup := by
  by_cases hex : ∃ b ∈ l, b.username = u
  · rw [insertOrReplace_usernames_of_mem l u p t n hex]
    exact h
  · push_neg at hex
    rw [insertOrReplace_usernames_of_not_mem l u p t n hex]
    rw [List.map_append]
    simp only [List.map_cons, List.map_nil]
    rw [List.nodup_append]
    refine ⟨h, List.nodup_singleton u, ?_⟩
    intro x hx
    simp only [List.mem_singleton]
    rcases List.mem_map.mp hx with ⟨b, hb, rfl⟩
    intro hc
    exact hex b hb hc

theorem authDelete_nodup (l : List Auth) (t : String)
    (h : (l.map Auth.username).Nodup) :
    ((authDelete l t).1.map Auth.username).Nodup :=
  ((List.filter_sublist l).map Auth.username).nodup h

/-- Claim C6: after a second `insert_or_replace` for the same username with a
freshly generated token, the previously issued token matches no record (a
`get` with it fails with `AuthNotFound`, not `AuthTokenExpired`) and the new
token resolves to that username's record; and both mutating operations of the
`AuthController` (`insert_or_replace` and `delete`) preserve the at most one
record per username invariant.  Token freshness — the generated 16-character
random tokens being distinct from each other and from all stored tokens — is
taken as a hypothesis. -/
theorem auth_rotation_invalidates (auths : List Auth) (u p1 p2 tok1 tok2 : String)
    (n1 n2 d nowq : Nat)
    (hf1 : ∀ a ∈ auths, a.token ≠ tok1)
    (hf2 : ∀ a ∈ auths, a.token ≠ tok2)
    (hne : tok2 ≠ tok1) :
    (authGet (insertOrReplace (insertOrReplace auths u p1 tok1 n1).1 u p2 tok2 n2).1 d tok1 nowq
        = Except.error Erro.AuthNotFound) ∧
    (∃ rec, (insertOrReplace (insertOrReplace auths u p1 tok1 n1).1 u p2 tok2 n2).1.find?
        (fun x => x.token == tok2) = some rec ∧ rec.username = u) ∧
    (∀ l : List Auth, ∀ u' p' t' : String, ∀ n' : Nat,
      (l.map Auth.username).Nodup → ((insertOrReplace l u' p' t' n').1.map Auth.username).Nodup) ∧
    (∀ l : List Auth, ∀ t' : String,
      (l.map Auth.username).Nodup → ((authDelete l t').1.map Auth.username).Nodup) := by
  refine ⟨?_, rotate_new_token_resolves auths u p1 p2 tok1 tok2 n1 n2 hf2,
    insertOrReplace_nodup, authDelete_nodup⟩
  have hgone := rotate_removes_old_token auths u p1 p2 tok1 tok2 n1 n2 hf1 hne
  have hnone : (insertOrReplace (insertOrReplace auths u p1 tok1 n1).1 u p2 tok2 n2).1.find?
      (fun a => a.token == tok1) = none := by
    rw [List.find?_eq_none]
    intro a ha
    simpa using hgone a ha
  simp [authGet, hnone]

/-- Witness for claim C6 at a concrete rotation: empty controller, username
"u", tokens "a" then "b". -/
theorem auth_rotation_invalidates_witness :
    (authGet (insertOrReplace (insertOrReplace [] "u" "p1" "a" 0).1 "u" "p2" "b" 1).1 5 "a" 2
        = Except.error Erro.AuthNotFound) ∧
    (∃ rec, (insertOrReplace (insertOrReplace [] "u" "p1" "a" 0).1 "u" "p2" "b" 1).1.find?
        (fun x => x.token == "b") = some rec ∧ rec.username = "u") ∧
    (∀ l : List Auth, ∀ u' p' t' : String, ∀ n' : Nat,
      (l.map Auth.username).Nodup → ((insertOrReplace l u' p' t' n').1.map Auth.username).Nodup) ∧
    (∀ l : List Auth, ∀ t' : String,
      (l.map Auth.username).Nodup → ((authDelete l t').1.map Auth.username).Nodup) :=
  auth_rotation_invalidates [] "u" "p1" "p2" "a" "b" 0 1 5 2
    (by simp) (by simp) (by decide)

/-- Claim C5: `get` finds the record by token and validates it against the
wall clock: `AuthNotFound` when no record carries the token; for the record
found, success exactly when `now < issued_at + ttl` and `AuthTokenExpired`
exactly when `issued_at + ttl <= now`.  (`get` takes `&self` in the source,
so expired records are never removed by it.) -/
theorem authGet_expiry_spec (auths : List Auth) (d : Nat) (token : String) (now : Nat) :
    ((∀ a ∈ auths, a.token ≠ token) → authGet auths d token now = Except.error Erro.AuthNotFound) ∧
    (∀ a, auths.find? (fun x => x.token == token) = some a →
      (authGet auths d token now = Except.ok a ↔ now < a.date + d) ∧
      (authGet auths d token now = Except.error Erro.AuthTokenExpired ↔ a.date + d ≤ now)) := by
  constructor
  · intro h
    have hnone : auths.find? (fun a => a.token == token) = none := by
      rw [List.find?_eq_none]
      intro x hx
      simpa using h x hx
    simp [authGet, hnone]
  · intro a ha
    by_cases hle : a.date + d ≤ now
    · have hx : Auth.expired a d now = true := by simp [Auth.expired, hle]
      constructor
      · simp [authGet, ha, hx]
        omega
      · simp [authGet, ha, hx, hle]
    · have hx : Auth.expired a d now = false := by simp [Auth.expired]; omega
      constructor
      · simp [authGet, ha, hx]
        omega
      · simp [authGet, ha, hx]
        omega

/-- Witness for claim C5 at a concrete record: token "t" issued at instant 3
with TTL 10, looked up at instant 7 (valid: get succeeds, not expired). -/
theorem authGet_expiry_spec_witness :
    (authGet [{ token := "t", username := "u", password := "p", date := 3 }] 10 "t" 7
        = Except.ok { token := "t", username := "u", password := "p", date := 3 } ↔ 7 < 3 + 10) ∧
    (authGet [{ token := "t", username := "u", password := "p", date := 3 }] 10 "t" 7
        = Except.error Erro.AuthTokenExpired ↔ 3 + 10 ≤ 7) :=
  (authGet_expiry_spec [{ token := "t", username := "u", password := "p", date := 3 }] 10 "t" 7).2
    { token := "t", username := "u", password := "p", date := 3 } (by decide)

/-- Claim C2 (code behaviour at the failing input): re-issuing a token for an
existing username does not refresh the stored issuance instant.  Starting
from an empty controller, a token issued at instant 0 and re-issued at
instant 5 with TTL 10 is already expired at instant 12, although instant 12
is within a full TTL of the re-issuance (12 < 5 + 10): the update arm of
`insert_or_replace` replaces password and token but leaves `date` at the
original insertion instant, so `get` fails with `AuthTokenExpired`. -/
theorem insert_or_replace_stale_date_on_update :
    (insertOrReplace (insertOrReplace [] "user" "pw" "tokA" 0).1 "user" "pw2" "tokB" 5).2
        = "tokB" ∧
    12 < 5 + 10 ∧
    authGet (insertOrReplace (insertOrReplace [] "user" "pw" "tokA" 0).1 "user" "pw2" "tokB" 5).1
        10 "tokB" 12 = Except.error Erro.AuthTokenExpired :=
  ⟨rfl, by norm_num, rfl⟩

theorem concat_set_last (xs : List Task) (a b : Task) :
    (xs ++ [a]).set xs.length b = xs ++ [b] := by
  rw [List.set_append_right _ _ (Nat.le_refl _)]
  simp

/-- Claim C7: with `N` previously created tasks (`wf` ties `last_id` to the
ledger length), `new_task` allocates id `N + 1`, strictly above every
recorded id (so ids are never reused), appends the record with status
`Created` before any execution starts, preserves the invariant, and
synchronously returns the serialized snapshot of that record, whose
`status` field is `"created"` and whose `app_output` and `app_error` fields
are null. -/
theorem new_task_ledger_spec (tc : TaskController) (appName : String) (v : Value)
    (h : tc.wf) :
    ∃ t : Task,
      (new_task tc appName v).2.tasks = tc.tasks ++ [t] ∧
      t.id = tc.tasks.length + 1 ∧
      t.status = TaskStatus.Created ∧
      t.app_output = none ∧
      t.app_error = none ∧
      t.app_name = appName ∧
      t.app_input = v ∧
      (∀ t' ∈ tc.tasks, t'.id < t.id) ∧
      (new_task tc appName v).2.last_id = tc.last_id + 1 ∧
      (new_task tc appName v).2.wf ∧
      (new_task tc appName v).1 = taskToValue t ∧
      objGet (new_task tc appName v).1 "status" = some (Value.str "created") ∧
      objGet (new_task tc appName v).1 "app_output" = some Value.null ∧
      objGet (new_task tc appName v).1 "app_error" = some Value.null := by
  obtain ⟨hlen, hids⟩ := h
  refine ⟨{ id := tc.last_id + 1, app_name := appName, status := TaskStatus.Created,
            app_input := v, app_output := none, app_error := none },
          rfl, by rw [hlen], rfl, rfl, rfl, rfl, rfl, ?_, rfl, ?_, rfl, rfl, rfl, rfl⟩
  · intro t' ht'
    have h1 := hids t' ht'
    show t'.id < tc.last_id + 1
    omega
  · constructor
    · simp [new_task, hlen]
    · intro t ht
      simp only [new_task, List.mem_append, List.mem_singleton] at ht
      rcases ht with ht | ht
      · have := hids t ht
        simp only [new_task]
        omega
      · simp [new_task, ht]

/-- Witness for claim C7 on the empty controller. -/
theorem new_task_ledger_spec_witness :
    ∃ t : Task,
      (new_task { tasks := [], last_id := 0 } "sh" (Value.str "in")).2.tasks = [] ++ [t] ∧
      t.id = ([] : List Task).length + 1 ∧
      t.status = TaskStatus.Created ∧
      t.app_output = none ∧
      t.app_error = none ∧
      t.app_name = "sh" ∧
      t.app_input = Value.str "in" ∧
      (∀ t' ∈ ([] : List Task), t'.id < t.id) ∧
      (new_task { tasks := [], last_id := 0 } "sh" (Value.str "in")).2.last_id = 0 + 1 ∧
      (new_task { tasks := [], last_id := 0 } "sh" (Value.str "in")).2.wf ∧
      (new_task { tasks := [], last_id := 0 } "sh" (Value.str "in")).1 = taskToValue t ∧
      objGet (new_task { tasks := [], last_id := 0 } "sh" (Value.str "in")).1 "status"
        = some (Value.str "created") ∧
      objGet (new_task { tasks := [], last_id := 0 } "sh" (Value.str "in")).1 "app_output"
        = some Value.null ∧
      objGet (new_task { tasks := [], last_id := 0 } "sh" (Value.str "in")).1 "app_error"
        = some Value.null :=
  new_task_ledger_spec { tasks := [], last_id := 0 } "sh" (Value.str "in")
    ⟨rfl, by simp⟩

theorem spawnBody_concat (xs : List Task) (t : Task) (result : Except Erro AppOutput) :
    spawnBody (xs ++ [t]) (xs.length + 1) result =
      match result with
      | Except.ok r =>
          match toValue r with
          | Except.error m => Except.error (Erro.SerdeJson m)
          | Except.ok v => Except.ok (xs ++ [finishTask t v])
      | Except.error e => Except.ok (xs ++ [failTask t e]) := by
  unfold spawnBody finishTask failTask
  simp only [Nat.add_sub_cancel, List.getElem?_concat_length, concat_set_last]

/-- Claim C3: for a task created by `new_task` on a well-formed controller,
the spawned unit always terminates with `ok` — no error escapes it — and the
record at the task's index ends with exactly one terminal outcome: on a
handler error, status `Failed`, a non-empty error string and no output; on
handler success, status `Finished` with the serialized output set and no
error.  (`toValue` is total on the closed set of app output shapes, so the
`to_value(result)?` escape hatch inside the spawned unit never fires.) -/
theorem task_terminal_outcome (tc : TaskController) (appName : String) (v : Value)
    (result : Except Erro AppOutput) (h : tc.wf) :
    ∃ tasks' : List Task,
      spawnBody (new_task tc appName v).2.tasks (new_task tc appName v).2.last_id result
        = Except.ok tasks' ∧
      ∃ t : Task, tasks'[tc.tasks.length]? = some t ∧
        (match result with
         | Except.ok r => ∃ val, toValue r = Except.ok val ∧
             t.status = TaskStatus.Finished ∧ t.app_output = some val ∧ t.app_error = none
         | Except.error e =>
             t.status = TaskStatus.Failed ∧ t.app_error = some (Erro.debugFmt e) ∧
             Erro.debugFmt e ≠ "" ∧ t.app_output = none) := by
  obtain ⟨hlen, hids⟩ := h
  have hnt : (new_task tc appName v).2.tasks
      = tc.tasks ++ [createdTask (tc.last_id + 1) appName v] := rfl
  have hni : (new_task tc appName v).2.last_id = tc.tasks.length + 1 := by
    simp [new_task, hlen]
  rw [hnt, hni, hlen]
  rw [spawnBody_concat]
  cases result with
  | ok r =>
      obtain ⟨val, hval⟩ : ∃ val, toValue r = Except.ok val := by
        cases r <;> exact ⟨_, rfl⟩
      simp only [hval]
      refine ⟨_, rfl, _, List.getElem?_concat_length _ _, ?_⟩
      exact ⟨val, rfl, rfl, rfl, rfl⟩
  | error e =>
      refine ⟨_, rfl, _, List.getElem?_concat_length _ _, ?_⟩
      exact ⟨rfl, rfl, debugFmt_ne_empty e, rfl⟩

/-- Witness for claim C3: a concrete failed run on the empty controller
(handler error `Deserialize`), applying the theorem at that input. -/
theorem task_terminal_outcome_witness :
    ∃ tasks' : List Task,
      spawnBody (new_task { tasks := [], last_id := 0 } "ls" Value.null).2.tasks
          (new_task { tasks := [], last_id := 0 } "ls" Value.null).2.last_id
          (Except.error (Erro.Deserialize "missing field"))
        = Except.ok tasks' ∧
      ∃ t : Task, tasks'[([] : List Task).length]? = some t ∧
        (match (Except.error (Erro.Deserialize "missing field") : Except Erro AppOutput) with
         | Except.ok r => ∃ val, toValue r = Except.ok val ∧
             t.status = TaskStatus.Finished ∧ t.app_output = some val ∧ t.app_error = none
         | Except.error e =>
             t.status = TaskStatus.Failed ∧ t.app_error = some (Erro.debugFmt e) ∧
             Erro.debugFmt e ≠ "" ∧ t.app_output = none) :=
  task_terminal_outcome { tasks := [], last_id := 0 } "ls" Value.null
    (Except.error (Erro.Deserialize "missing field")) ⟨rfl, by simp⟩

theorem matches_iff (p : FileMatchPattern) (value : String) (os : Os) :
    p.matches value os = true ↔
      ((∃ t ∈ p.compatibility, t.compatible os = true) ∧
        (match p.pattern with
         | FileMatchPatternType.path s => s = value
         | FileMatchPatternType.regex r => r.isMatch value = true)) := by
  unfold FileMatchPattern.matches
  by_cases hc : (p.compatibility.any fun i => i.compatible os) = true
  · rw [if_pos hc]
    have hex : ∃ t ∈ p.compatibility, t.compatible os = true := by
      simpa [List.any_eq_true] using hc
    cases hp : p.pattern with
    | path s => simp [hex, beq_iff_eq]
    | regex r => simp [hex]
  · rw [if_neg hc]
    have hnex : ¬ ∃ t ∈ p.compatibility, t.compatible os = true := by
      simpa [List.any_eq_true] using hc
    simp [hnex]

/-- Claim C4: `file_builders_mut_by_match` returns the first registered
builder (in fixed registration order) accepted by the match predicate; when
no builder matches it fails with `FilesNotMatchedByPattern` (it is a total
function, so it never panics); and a builder matches exactly when some
declared pattern both matches the path (exact equality for `Path`, regex
match for `Regex`) and carries at least one declared OS tag
lattice-compatible with the system's OS. -/
theorem file_dispatch_first_match (files : List FileBuilderSpec) (pat : String)
    (system : System) (os : Os) (hos : system.os? = some os) :
    (∀ f, file_builders_mut_by_match files pat system = Except.ok f →
      builderMatch f pat os = true ∧
      ∃ pre post, files = pre ++ f :: post ∧ ∀ g ∈ pre, builderMatch g pat os = false) ∧
    ((∀ g ∈ files, builderMatch g pat os = false) →
      file_builders_mut_by_match files pat system
        = Except.error (Erro.FilesNotMatchedByPattern pat)) ∧
    (∀ f : FileBuilderSpec, builderMatch f pat os = true ↔
      ∃ mp ∈ f.patterns,
        ((match mp.pattern with
          | FileMatchPatternType.path s => s = pat
          | FileMatchPatternType.regex r => r.isMatch pat = true) ∧
         ∃ t ∈ mp.compatibility, t.compatible os = true)) := by
  have hsys : system.os = Except.ok os := by simp [System.os, hos]
  refine ⟨?_, ?_, ?_⟩
  · intro f hf
    simp only [file_builders_mut_by_match, hsys] at hf
    cases hfind : files.find? (fun f => builderMatch f pat os) with
    | none => rw [hfind] at hf; exact absurd hf (by simp)
    | some g =>
        rw [hfind] at hf
        have hg : g = f := by simpa using hf
        subst hg
        rw [List.find?_eq_some] at hfind
        obtain ⟨hpg, pre, post, hsplit, hpre⟩ := hfind
        exact ⟨hpg, pre, post, hsplit, fun a ha => by simpa using hpre a ha⟩
  · intro hall
    have hnone : files.find? (fun f => builderMatch f pat os) = none := by
      rw [List.find?_eq_none]
      intro a ha
      simp [hall a ha]
    simp only [file_builders_mut_by_match, hsys, hnone]
  · intro f
    unfold builderMatch builderMatchHandle
    have hmap : ∀ (o : Option FileMatchPattern),
        (Option.map (fun _ => pat) o).isSome = o.isSome := by
      intro o
      cases o <;> rfl
    rw [hmap, List.find?_isSome]
    constructor
    · rintro ⟨mp, hmp, hmatches⟩
      obtain ⟨hcompat, hpat⟩ := (matches_iff mp pat os).mp hmatches
      exact ⟨mp, hmp, hpat, hcompat⟩
    · rintro ⟨mp, hmp, hpat, hcompat⟩
      exact ⟨mp, hmp, (matches_iff mp pat os).mpr ⟨hcompat, hpat⟩⟩

/-- Witness for claim C4 on the concrete one-entry registry: resolving
"/etc/hosts" on the `LinuxUbuntu` system returns the "hosts" builder, first
in order with an empty unmatched prefix. -/
theorem file_dispatch_first_match_witness :
    builderMatch hostsBuilder "/etc/hosts" Os.LinuxUbuntu = true ∧
    ∃ pre post, [hostsBuilder] = pre ++ hostsBuilder :: post ∧
      ∀ g ∈ pre, builderMatch g "/etc/hosts" Os.LinuxUbuntu = false :=
  (file_dispatch_first_match [hostsBuilder] "/etc/hosts" ubuntuSystem
    Os.LinuxUbuntu rfl).1 hostsBuilder rfl

/-- Claim C9: `FileBuilders::delete` forwards straight to `System::delete`
for every builder and path — it performs no pattern or OS check, so it can
only report `FilesNotMatched` if the transport itself did — whereas
`FileBuilders::read` and `FileBuilders::write` fail with `FilesNotMatched`
whenever the path does not match the builder's patterns under the system
OS. -/
theorem delete_bypasses_matching (b : FileBuilderSpec) (path : String) (system : System)
    (input : Value) :
    fileBuildersDelete b path system = system.deleteFn path ∧
    ((∀ p, system.deleteFn p ≠ Except.error Erro.FilesNotMatched) →
      fileBuildersDelete b path system ≠ Except.error Erro.FilesNotMatched) ∧
    (∀ os, system.os? = some os → builderMatch b path os = false →
      fileBuildersRead b path system = Except.error Erro.FilesNotMatched ∧
      fileBuildersWrite b path input system = Except.error Erro.FilesNotMatched) := by
  refine ⟨rfl, ?_, ?_⟩
  · intro h
    exact h path
  · intro os hos hnomatch
    have hsys : system.os = Except.ok os := by simp [System.os, hos]
    have hnone : builderMatchHandle b path os = none := by
      unfold builderMatch at hnomatch
      exact Option.not_isSome_iff_eq_none.mp (by simp [hnomatch])
    constructor
    · simp only [fileBuildersRead, hsys, hnone]
    · simp only [fileBuildersWrite, hsys, hnone]

/-- Witness for claim C9: the "hosts" builder on the `LinuxUbuntu` system and
a path "/tmp/x" that matches none of its patterns: delete forwards to the
transport while read and write report `FilesNotMatched`. -/
theorem delete_bypasses_matching_witness :
    fileBuildersDelete hostsBuilder "/tmp/x" ubuntuSystem
      = ubuntuSystem.deleteFn "/tmp/x" ∧
    fileBuildersDelete hostsBuilder "/tmp/x" ubuntuSystem
      ≠ Except.error Erro.FilesNotMatched ∧
    fileBuildersRead hostsBuilder "/tmp/x" ubuntuSystem
      = Except.error Erro.FilesNotMatched ∧
    fileBuildersWrite hostsBuilder "/tmp/x" Value.null ubuntuSystem
      = Except.error Erro.FilesNotMatched := by
  have h := delete_bypasses_matching hostsBuilder "/tmp/x" ubuntuSystem Value.null
  obtain ⟨h1, h2, h3⟩ := h
  have hrw := h3 Os.LinuxUbuntu rfl rfl
  exact ⟨h1, h2 (fun p => by simp [ubuntuSystem]), hrw.1, hrw.2⟩

/-- Claim C8: once a call to `system`/`system_credential` has succeeded —
resolving and caching a `System` under credential `c1` — the cache holds
exactly the returned `System`, and a later call with any credential `c2`
returns that same `System` and leaves the state unchanged: the result of the
later call does not depend on `c2` (two-run noninterference over the cached
state). -/
theorem cached_system_noninterference
    (detect : Credential → Option String → Except Erro System)
    (detectOs : System → Except Erro Os) (sm : SystemManager) (c1 c2 : Credential)
    (s1 : System) (sm1 : SystemManager)
    (h : system_credential detect detectOs sm c1 = Except.ok (s1, sm1)) :
    sm1.system = some s1 ∧
    system_credential detect detectOs sm1 c2 = Except.ok (s1, sm1) := by
  cases hcache : sm.system with
  | some s =>
      simp only [system_credential, hcache, Except.ok.injEq, Prod.mk.injEq] at h
      obtain ⟨hs, hsm⟩ := h
      subst hs
      subst hsm
      exact ⟨hcache, by simp only [system_credential, hcache]⟩
  | none =>
      simp only [system_credential, hcache] at h
      cases hdet : detect c1 sm.endpoint with
      | error e =>
          rw [hdet] at h
          exact absurd h (by simp)
      | ok sys =>
          simp only [hdet] at h
          cases hos : detectOs sys with
          | error e =>
              rw [hos] at h
              exact absurd h (by simp)
          | ok os =>
              simp only [hos, Except.ok.injEq, Prod.mk.injEq] at h
              obtain ⟨hs, hsm⟩ := h
              subst hs
              subst hsm
              exact ⟨rfl, rfl⟩

/-- Witness for claim C8 at concrete resolvers and credentials: the first
call resolves under alice's credential; the second call, made with bob's
credential, returns the very same cached `System`. -/
theorem cached_system_noninterference_witness :
    ({ system := some { os? := some Os.LinuxAny, deleteFn := fun _ => Except.ok () },
       endpoint := none } : SystemManager).system
      = some { os? := some Os.LinuxAny, deleteFn := fun _ => Except.ok () } ∧
    system_credential
        (fun _ _ => Except.ok { os? := none, deleteFn := fun _ => Except.ok () })
        (fun _ => Except.ok Os.LinuxAny)
        { system := some { os? := some Os.LinuxAny, deleteFn := fun _ => Except.ok () },
          endpoint := none }
        { username := "bob", password := "zz" }
      = Except.ok
          ({ os? := some Os.LinuxAny, deleteFn := fun _ => Except.ok () },
           { system := some { os? := some Os.LinuxAny, deleteFn := fun _ => Except.ok () },
             endpoint := none }) :=
  cached_system_noninterference
    (fun _ _ => Except.ok { os? := none, deleteFn := fun _ => Except.ok () })
    (fun _ => Except.ok Os.LinuxAny)
    { system := none, endpoint := none }
    { username := "alice", password := "pw" }
    { username := "bob", password := "zz" }
    { os? := some Os.LinuxAny, deleteFn := fun _ => Except.ok () }
    { system := some { os? := some Os.LinuxAny, deleteFn := fun _ => Except.ok () },
      endpoint := none }
    rfl

/-- Claim C10: `Posix::exist` maps a successful run of `test -e` to
`Ok(true)`, converts a `RunUser` or `RunSsh` failure carrying exit code
exactly 1 into `Ok(false)`, and propagates every other failure unchanged. -/
theorem posix_exist_spec (run : String → List String → Except Erro (List Nat))
    (path : String) :
    (∀ bytes, run "/bin/test" ["-e", path] = Except.ok bytes →
      posixExist run path = Except.ok true) ∧
    (∀ msg, run "/bin/test" ["-e", path] = Except.error (Erro.RunUser 1 msg) →
      posixExist run path = Except.ok false) ∧
    (∀ msg, run "/bin/test" ["-e", path] = Except.error (Erro.RunSsh 1 msg) →
      posixExist run path = Except.ok false) ∧
    (∀ e, run "/bin/test" ["-e", path] = Except.error e →
      (∀ code msg, e = Erro.RunUser code msg → code ≠ 1) →
      (∀ code msg, e = Erro.RunSsh code msg → code ≠ 1) →
      posixExist run path = Except.error e) := by
  refine ⟨?_, ?_, ?_, ?_⟩
  · intro bytes h
    simp only [posixExist, h]
  · intro msg h
    simp [posixExist, h]
  · intro msg h
    simp [posixExist, h]
  · intro e h h1 h2
    cases e
    case RunUser code msg =>
      have hc : code ≠ 1 := h1 code msg rfl
      simp only [posixExist, h, if_neg hc]
    case RunSsh code msg =>
      have hc : code ≠ 1 := h2 code msg rfl
      simp only [posixExist, h, if_neg hc]
    all_goals simp only [posixExist, h]

/-- Witness for claim C10: a run failing as `RunUser` with exit code 1 is
reported as `Ok(false)`. -/
theorem posix_exist_spec_witness :
    posixExist (fun _ _ => Except.error (Erro.RunUser 1 "fail")) "/tmp/x"
      = Except.ok false :=
  (posix_exist_spec (fun _ _ => Except.error (Erro.RunUser 1 "fail")) "/tmp/x").2.1
    "fail" rfl

end Boofi
